import Mathlib

/-!
Shallow embedding of the bettensor miner sources
(`bettensor/miner/bettensor_miner.py`,
`bettensor/miner/interfaces/redis_interface.py`, `bettensor/miner/cli.py`)
together with proofs about the claims of the specification.

Conventions: Python floats that carry money/stake are modelled as `ℚ`
(exact arithmetic); Python dicts that the miner only iterates, tests for
emptiness, or passes along are modelled as association lists; a Python
call that may raise is modelled as `Except Err`; a method whose body is
not among the sources (the stats state manager and the cache manager
live in modules that are not part of this repository snapshot) is
modelled from the specification and carries a doc comment saying so.
-/

namespace Bettensor

/-- Error payloads of raised Python exceptions (the message string). -/
abbrev Err := String

/-! ## Redis interface (`bettensor/miner/interfaces/redis_interface.py`) -/

/-- One value stored in Redis: the payload and its time-to-live.
`ttl = none` means the key was written with no expiry (it never
self-cleans). -/
structure REntry where
  value : String
  ttl : Option Nat
deriving DecidableEq, Repr

/-- The Redis key/value surface, as an association list. -/
abbrev Store := List (String × REntry)

/-- Write a key (overwriting any previous binding). -/
def storeSet (st : Store) (k : String) (e : REntry) : Store :=
  (k, e) :: st.filter (fun p => p.1 != k)

/-- Read a key. -/
def storeGet (st : Store) (k : String) : Option REntry :=
  (st.find? (fun p => p.1 == k)).map (fun p => p.2)

/-- Delete a key. -/
def storeDel (st : Store) (k : String) : Store :=
  st.filter (fun p => p.1 != k)

/-- `RedisInterface.connect`: pings the server; on success
`is_connected := True` and `True` is returned, on `ConnectionError`
`is_connected := False` and `False` is returned.  `pingOk` is the
outcome of the network ping.  Result: `(is_connected, return value)`. -/
def redis_connect (pingOk : Bool) : Bool × Bool :=
  if pingOk then (true, true) else (false, false)

/-- `RedisInterface.publish`: returns `False` when not connected, `True`
on success, and `False` when the underlying client raises (`clientErr`);
the exception is caught, never propagated. -/
def redis_publish (connected clientErr : Bool) : Bool :=
  if ¬connected then false
  else if clientErr then false
  else true

/-- `RedisInterface.get`: `None` when not connected, `None` when the
underlying client raises, otherwise the stored payload (if any). -/
def redis_get (connected clientErr : Bool) (st : Store) (k : String) :
    Option String :=
  if ¬connected then none
  else if clientErr then none
  else (storeGet st k).map (fun e => e.value)

/-- `RedisInterface.set`: `(False, store unchanged)` when not connected
or when the underlying client raises (exception caught); otherwise the
source calls `redis_client.set(key, value)` with NO expiry argument, so
the entry is stored with `ttl = none`. -/
def redis_set (connected clientErr : Bool) (st : Store) (k v : String) :
    Bool × Store :=
  if ¬connected then (false, st)
  else if clientErr then (false, st)
  else (true, storeSet st k { value := v, ttl := none })

/-- The fuel of `wait_for_result`: the loop body runs while
`elapsed < timeout` and each iteration sleeps `0.1` seconds, so the
`n`-th head check (counting from `0`) sees `elapsed = n / 10`; the
number of iterations is the number of naturals `n` with `n / 10 <
timeout`, i.e. `⌈10 · timeout⌉` clipped to `0`. -/
def wfrFuel (timeout : ℚ) : Nat :=
  (Int.ceil (10 * timeout)).toNat

/-- The polling loop of `RedisInterface.wait_for_result`. `stores n` is
the snapshot of the key/value surface seen by the `n`-th poll (other
writers may act between polls).  On a hit the key is deleted and the
payload returned; when the fuel (the deadline) runs out a
`TimeoutError` is raised, modelled as `Except.error ()`. -/
def wait_loop (stores : Nat → Store) (key : String) :
    Nat → Nat → Except Unit (String × Store)
  | _, 0 => .error ()
  | n, fuel + 1 =>
    match storeGet (stores n) key with
    | some e => .ok (e.value, storeDel (stores n) key)
    | none => wait_loop stores key (n + 1) fuel

/-- `RedisInterface.wait_for_result(message_id, timeout)`: polls the key
`result:<message_id>` until the deadline; returns the payload together
with the store after the single-consumption delete, or raises
`TimeoutError`. -/
def wait_for_result (stores : Nat → Store) (message_id : String)
    (timeout : ℚ) : Except Unit (String × Store) :=
  wait_loop stores ("result:" ++ message_id) 0 (wfrFuel timeout)

/-! ## Bridge startup and the listener
(`bettensor_miner.py`, `__init__` lines 58-68 and
`listen_for_redis_messages`) -/

/-- `BettensorMiner.__init__`, Redis part: if `connect()` returns
`False` the GUI bridge is disabled and no listener thread is started;
otherwise both are enabled.  Result:
`(gui_available, listener_started)`. -/
def miner_init_bridge (pingOk : Bool) : Bool × Bool :=
  let c := redis_connect pingOk
  if c.2 then (true, true) else (false, false)

/-- An inbound bridge message as read by the listener
(`data["message_id"]`, `data["game_id"]`, `data["game_data"]`). -/
structure BridgeMsg where
  message_id : String
  game_id : String
  game_data : String
deriving DecidableEq, Repr

/-- The write-back step of `listen_for_redis_messages` for one inbound
message: the computed `result` is stored via `RedisInterface.set` under
the key `"response:" ++ message_id` (this is the key literally written
in the source). -/
def listen_store_result (connected clientErr : Bool) (st : Store)
    (data : BridgeMsg) (result : String) : Bool × Store :=
  redis_set connected clientErr st ("response:" ++ data.message_id) result

/-! ## The forward path (`bettensor_miner.py`, `forward` and
`_clean_synapse`) -/

/-- The miner-side game batch: `synapse.gamedata_dict`, keyed by game
id; the miner only passes its entries to collaborators and tests it for
emptiness, so the game payload is kept abstract as a string. -/
abbrev GameDict := List (String × String)

/-- `synapse.prediction_dict`, keyed by prediction id. -/
abbrev PredDict := List (String × String)

/-- The part of the synapse `Metadata` that `forward` touches. -/
structure Metadata where
  subnet_version : Nat
  neuron_uid : Nat
  synapse_type : String
deriving DecidableEq, Repr

/-- `Metadata.create(wallet, subnet_version, neuron_uid, synapse_type)`
(signature fields only; the wallet only signs). -/
def Metadata.create (subnet_version neuron_uid : Nat)
    (synapse_type : String) : Metadata :=
  { subnet_version := subnet_version, neuron_uid := neuron_uid,
    synapse_type := synapse_type }

/-- The `GameData` synapse as `forward` sees it. -/
structure Synapse where
  gamedata_dict : Option GameDict
  prediction_dict : Option PredDict
  metadata : Metadata
deriving DecidableEq, Repr

/-- The fields of the miner that `forward`, `_clean_synapse`,
`blacklist` and `priority` read. -/
structure MinerCtx where
  subnet_version : Nat
  miner_uid : Nat
  gui_available : Bool
deriving DecidableEq, Repr

/-- `BettensorMiner._clean_synapse`: strips the game data and the
predictions and stamps an `"error"`-typed metadata; used both on the
no-predictions path and on the exception path. -/
def clean_synapse (m : MinerCtx) (s : Synapse) : Synapse :=
  { s with gamedata_dict := none, prediction_dict := none,
           metadata := Metadata.create m.subnet_version m.miner_uid "error" }

/-- One observable collaborator call made by `forward`, recording its
arguments. -/
inductive Ev where
  | filterChanged (batch : GameDict)
  | getCached
  | processGames (games : GameDict)
  | processPredictions (updated newGames : GameDict)
  | updateCache (preds : PredDict)
  | updateStats (preds : PredDict) (updated : GameDict)
  | periodicUpdate
deriving DecidableEq, Repr

/-- The outcome of each collaborator call during one `forward`
invocation (the collaborators live in modules outside this snapshot;
`forward` only observes their return value or the exception they
raise). -/
structure Env where
  filter_changed_games : GameDict → Except Err GameDict
  get_cached_predictions : Except Err PredDict
  process_games : GameDict → Except Err (GameDict × GameDict)
  process_predictions : GameDict → GameDict → Except Err PredDict
  update_cached_predictions : PredDict → Except Err Unit
  update_stats_from_predictions : PredDict → GameDict → Except Err Unit
  periodic_db_update : Except Err Unit

/-- What one call of `forward` produces: `ret` is the Python return
value (`none` models returning `None`, i.e. falling off the end of the
function), `syn` is the final state of the synapse object (it is
mutated in place), `trace` the collaborator calls made. -/
structure ForwardOut where
  ret : Option Synapse
  syn : Synapse
  trace : List Ev
deriving DecidableEq, Repr

/-- The `except` branch of `forward`: the exception is logged and
`_clean_synapse(synapse)` is returned. -/
def errorOut (m : MinerCtx) (s : Synapse) (tr : List Ev) : ForwardOut :=
  { ret := some (clean_synapse m s), syn := clean_synapse m s, trace := tr }

/-- `forward` from the line `if not recent_predictions:` on, after
`recent_predictions` has been computed (`changed` and `updated` are the
values of `changed_games` / `updated_games` at that point; `updated` is
only read when `changed` is nonempty, matching the `if changed_games:`
guard in the source).  On the fully successful path the source sets
`synapse.prediction_dict`, `synapse.gamedata_dict = None` and a
`"prediction"`-typed metadata, and then ends WITHOUT a return
statement, so the Python return value is `None`. -/
def forward_tail (m : MinerCtx) (env : Env) (s : Synapse)
    (changed updated : GameDict) (recent : PredDict) (tr : List Ev) :
    ForwardOut :=
  if recent.isEmpty then
    { ret := some (clean_synapse m s), syn := clean_synapse m s, trace := tr }
  else
    match
      (if changed.isEmpty then (Except.ok (), tr)
       else (env.update_stats_from_predictions recent updated,
             tr ++ [Ev.updateStats recent updated]) :
        Except Err Unit × List Ev) with
    | (.error _, tr2) => errorOut m s tr2
    | (.ok _, tr2) =>
      match env.periodic_db_update with
      | .error _ => errorOut m s (tr2 ++ [Ev.periodicUpdate])
      | .ok _ =>
        { ret := none,
          syn := { gamedata_dict := none, prediction_dict := some recent,
                   metadata := Metadata.create m.subnet_version m.miner_uid
                     "prediction" },
          trace := tr2 ++ [Ev.periodicUpdate] }

/-- `BettensorMiner.forward`.  The whole body after the version logging
sits in one `try`; any exception raised by a collaborator lands in the
`except` branch, which returns the cleaned synapse. -/
def forward (m : MinerCtx) (env : Env) (s : Synapse) : ForwardOut :=
  let batch := s.gamedata_dict.getD []
  match env.filter_changed_games batch with
  | .error _ => errorOut m s [Ev.filterChanged batch]
  | .ok changed =>
    if changed.isEmpty then
      match env.get_cached_predictions with
      | .error _ => errorOut m s [Ev.filterChanged batch, Ev.getCached]
      | .ok recent =>
        forward_tail m env s changed [] recent
          [Ev.filterChanged batch, Ev.getCached]
    else
      match env.process_games changed with
      | .error _ =>
        errorOut m s [Ev.filterChanged batch, Ev.processGames changed]
      | .ok (updated, newGames) =>
        match env.process_predictions updated newGames with
        | .error _ =>
          errorOut m s [Ev.filterChanged batch, Ev.processGames changed,
            Ev.processPredictions updated newGames]
        | .ok recent =>
          match env.update_cached_predictions recent with
          | .error _ =>
            errorOut m s [Ev.filterChanged batch, Ev.processGames changed,
              Ev.processPredictions updated newGames, Ev.updateCache recent]
          | .ok _ =>
            forward_tail m env s changed updated recent
              [Ev.filterChanged batch, Ev.processGames changed,
               Ev.processPredictions updated newGames, Ev.updateCache recent]

/-! ## Whitelist, blacklist, priority (`bettensor_miner.py`) -/

/-- The dynamically-typed `hotkey` argument of `check_whitelist`: a
Python `str`, a `bool`, or anything else. -/
inductive HotkeyInput where
  | str (s : String)
  | boolean (b : Bool)
  | otherVal
deriving DecidableEq, Repr

/-- The allow-list consulted by `check_whitelist`; in the source it is
the hardcoded local `whitelisted_hotkeys = []`. -/
def whitelisted_hotkeys : List String := []

/-- `BettensorMiner.check_whitelist`: rejects `bool` and every
non-`str` input, then tests membership in `whitelisted_hotkeys`. -/
def check_whitelist : HotkeyInput → Bool
  | .str s => decide (s ∈ whitelisted_hotkeys)
  | .boolean _ => false
  | .otherVal => false

/-- The metagraph fields read by `blacklist` and `priority`; the three
lists are indexed by uid, stakes as exact rationals. -/
structure Metagraph where
  hotkeys : List String
  validator_permit : List Bool
  S : List ℚ
deriving DecidableEq, Repr

/-- `BettensorMiner.blacklist`: whitelist short-circuit, then unknown
hotkey, validator permit, and minimum-stake checks; returns
`(blacklist?, reason)` — `true` means the requester is refused. -/
def blacklist (validator_min_stake : ℚ) (mg : Metagraph) (hk : String) :
    Bool × String :=
  if check_whitelist (.str hk) then
    (false, "Accepted whitelisted hotkey: " ++ hk)
  else if hk ∉ mg.hotkeys then
    (true, "Hotkey " ++ hk ++ " was not found from metagraph.hotkeys")
  else
    let uid := mg.hotkeys.indexOf hk
    if ¬ mg.validator_permit.getD uid false then
      (true, "Hotkey " ++ hk ++ " is not a validator")
    else if mg.S.getD uid 0 < validator_min_stake then
      (true, "Hotkey " ++ hk ++ " has insufficient stake")
    else
      (false, "Accepted hotkey: " ++ hk)

/-- `BettensorMiner.priority`: maximum priority `10000000.0` for a
whitelisted hotkey, otherwise the requester's metagraph stake;
`none` models the `ValueError` that `hotkeys.index` raises for a hotkey
absent from the metagraph. -/
def priority (mg : Metagraph) (hk : String) : Option ℚ :=
  if check_whitelist (.str hk) then some 10000000
  else if hk ∈ mg.hotkeys then
    some (mg.S.getD (mg.hotkeys.indexOf hk) 0)
  else none

/-- The stake recorded in the metagraph for a hotkey (`none` when the
hotkey is unknown). -/
def metagraph_stake (mg : Metagraph) (hk : String) : Option ℚ :=
  if hk ∈ mg.hotkeys then
    some (mg.S.getD (mg.hotkeys.indexOf hk) 0)
  else none

/-- `blacklist` with its whitelist-accept branch removed; comparing
against it states that the branch is unreachable. -/
def blacklist_no_whitelist (validator_min_stake : ℚ) (mg : Metagraph)
    (hk : String) : Bool × String :=
  if hk ∉ mg.hotkeys then
    (true, "Hotkey " ++ hk ++ " was not found from metagraph.hotkeys")
  else
    let uid := mg.hotkeys.indexOf hk
    if ¬ mg.validator_permit.getD uid false then
      (true, "Hotkey " ++ hk ++ " is not a validator")
    else if mg.S.getD uid 0 < validator_min_stake then
      (true, "Hotkey " ++ hk ++ " has insufficient stake")
    else
      (false, "Accepted hotkey: " ++ hk)

/-! ## The CLI wager-confirmation flow (`cli.py`) -/

/-- The game row shown on the wager-confirmation screen (fields the
confirm branch reads). -/
structure GameRow where
  externalId : String
  teamA : String
  teamB : String
  teamAodds : ℚ
  teamBodds : ℚ
  tieOdds : Option ℚ
deriving DecidableEq, Repr

/-- The prediction row built by `WagerConfirm.handle_enter` (identity
fields omitted; `uuid4` ids are supplied by the caller of the model). -/
structure PredRow where
  teamGameID : String
  predictedOutcome : String
  wager : ℚ
  teamAodds : ℚ
  teamBodds : ℚ
  tieOdds : Option ℚ
  outcome : String
deriving DecidableEq, Repr

/-- Modelled from the spec: the miner-stats state manager
(`bettensor.miner.stats.miner_stats`, not among the sources).  Only the
fields the wager flow touches: the cash balance and the last daily
reset date (as a day number). -/
structure SMState where
  cash : ℚ
  lastResetDate : Nat
deriving DecidableEq, Repr

/-- Modelled from the spec: `MinerStateManager.update_on_prediction`
applies the signed cash delta of a prediction; per the spec a confirmed
wager of amount `W` debits `cash` by exactly `W`, and the CLI passes
the delta `-W`. -/
def sm_update_on_prediction (sm : SMState) (wagerDelta : ℚ) : SMState :=
  { sm with cash := sm.cash + wagerDelta }

/-- Modelled from the spec: `MinerStateManager.reconcile_state` merges
persisted state and performs the daily reset (restoring the daily cash
allowance) when the stored last-reset date precedes the current
date. -/
def sm_reconcile_state (sm : SMState) (today : Nat) (dailyCash : ℚ) :
    SMState :=
  if sm.lastResetDate < today then
    { cash := dailyCash, lastResetDate := today }
  else sm

/-- The `Application` state the wager flow touches: the cash copy held
by the UI, the in-memory prediction dict, the rows persisted through
the predictions handler (modelled as the list of rows passed to
`add_prediction`), and the state manager. -/
structure AppState where
  miner_cash : ℚ
  predictions : List PredRow
  persisted : List PredRow
  sm : SMState
deriving DecidableEq, Repr

/-- `Application.reload_miner_stats`: reconcile, then refresh
`miner_cash` from the state manager. -/
def app_reload_miner_stats (app : AppState) (today : Nat)
    (dailyCash : ℚ) : AppState :=
  { app with sm := sm_reconcile_state app.sm today dailyCash,
             miner_cash := (sm_reconcile_state app.sm today dailyCash).cash }

/-- `Application.update_miner_cash`: adds `amount` to the UI cash copy,
pushes the same delta through the state manager, then reloads. -/
def app_update_miner_cash (app : AppState) (amount : ℚ) (today : Nat)
    (dailyCash : ℚ) : AppState :=
  app_reload_miner_stats
    { app with miner_cash := app.miner_cash + amount,
               sm := sm_update_on_prediction app.sm amount }
    today dailyCash

/-- `Application.add_prediction`: stores the row in the in-memory dict
and through the predictions handler, then debits the cash by the
row's wager. -/
def app_add_prediction (app : AppState) (p : PredRow) (today : Nat)
    (dailyCash : ℚ) : AppState :=
  app_update_miner_cash
    { app with predictions := p :: app.predictions,
               persisted := p :: app.persisted }
    (-p.wager) today dailyCash

/-- The prediction row the confirm branch builds from the screen
state. -/
def mk_pred_row (g : GameRow) (selected_team : String) (w : ℚ) :
    PredRow :=
  { teamGameID := g.externalId, predictedOutcome := selected_team,
    wager := w, teamAodds := g.teamAodds, teamBodds := g.teamBodds,
    tieOdds := g.tieOdds, outcome := "Unfinished" }

/-- The `Confirm Wager` branch of `WagerConfirm.handle_enter`.
`wager_text` is the result of `float(self.wager_input.text.strip())`
(`none` models the parse `ValueError`).  An amount `w ≤ 0` or
`w > miner_cash` raises `ValueError("Invalid wager amount")`, caught by
the surrounding handler, which only sets the confirmation message and
redraws (`update_text_area` reloads the stats).  Otherwise the row is
built and `add_prediction` runs.  Returns the new application state and
whether the wager was submitted. -/
def wager_confirm_enter (app : AppState) (g : GameRow)
    (selected_team : String) (wager_text : Option ℚ) (today : Nat)
    (dailyCash : ℚ) : AppState × Bool :=
  match wager_text with
  | none => (app_reload_miner_stats app today dailyCash, false)
  | some w =>
    if w ≤ 0 ∨ w > app.miner_cash then
      (app_reload_miner_stats app today dailyCash, false)
    else
      (app_add_prediction app (mk_pred_row g selected_team w) today
        dailyCash, true)

/-! ## Concrete instances used in the theorems -/

/-- A miner context with arbitrary concrete field values. -/
def mCtx : MinerCtx :=
  { subnet_version := 1, miner_uid := 7, gui_available := true }

/-- A synapse carrying one game. -/
def synGame : Synapse :=
  { gamedata_dict := some [("g1", "d1")], prediction_dict := none,
    metadata := Metadata.create 1 0 "game_data" }

/-- A collaborator outcome in which every call succeeds, every game in
the batch counts as changed, and one fresh prediction is produced. -/
def envAllOk : Env :=
  { filter_changed_games := fun b => .ok b
    get_cached_predictions := .ok [("p0", "cached0")]
    process_games := fun g => .ok (g, [])
    process_predictions := fun _ _ => .ok [("p1", "fresh1")]
    update_cached_predictions := fun _ => .ok ()
    update_stats_from_predictions := fun _ _ => .ok ()
    periodic_db_update := .ok () }

/-- A metagraph with one sufficiently staked validator (`"vali"`, stake
`2000`) and one non-validator (`"plain"`). -/
def mgW : Metagraph :=
  { hotkeys := ["vali", "plain"], validator_permit := [true, false],
    S := [2000, 50] }

/-! ## Theorems -/

/-- C1: the claim states that `forward` returns the synapse on every
path, including the successful one.  The code violates this: the
success path (predictions computed and attached to the synapse object)
ends without a `return` statement, so `forward` returns Python `None`
there, while the synapse object itself does get the predictions and a
`"prediction"`-typed metadata.  This theorem evaluates the embedding at
a fully successful run and exhibits `ret = none`. -/
theorem c1_success_path_returns_none :
    (forward mCtx envAllOk synGame).ret = none ∧
    (forward mCtx envAllOk synGame).syn.prediction_dict =
      some [("p1", "fresh1")] ∧
    (forward mCtx envAllOk synGame).syn.metadata.synapse_type =
      "prediction" :=
  ⟨rfl, rfl, rfl⟩

/-- C2: the claim states the listener stores its result at the key
`result:<message_id>` that `wait_for_result` polls, with a finite
expiry.  The code violates both parts: `listen_for_redis_messages`
writes `response:<message_id>`, and `RedisInterface.set` passes no
expiry to the client, so the entry has no time-to-live; consequently a
waiter polling `result:m1` times out even though the listener stored
the result. -/
theorem c2_listener_key_mismatch_and_no_expiry :
    (listen_store_result true false [] ⟨"m1", "g1", "d1"⟩ "payload").2 =
      [("response:m1", { value := "payload", ttl := none })] ∧
    storeGet
      (listen_store_result true false [] ⟨"m1", "g1", "d1"⟩ "payload").2
      "result:m1" = none ∧
    wait_for_result
      (fun _ =>
        (listen_store_result true false [] ⟨"m1", "g1", "d1"⟩ "payload").2)
      "m1" 5 = .error () := by
  refine ⟨rfl, rfl, ?_⟩
  have hf : wfrFuel 5 = 50 := by
    have h50 : Int.ceil (10 * (5 : ℚ)) = 50 := by norm_num
    rw [wfrFuel, h50]
    rfl
  simp only [wait_for_result, hf]
  rfl

/-- C8: if the broker ping fails at startup the bridge is disabled (no
listener thread, `gui_available = False`) and every bridge operation
returns its failure value; every runtime client error inside `publish`,
`get`, or `set` is caught and turned into the failure value with the
store untouched; and the direct request path (`forward`) does not read
the bridge availability flag at all. -/
theorem c8_bridge_failure_semantics :
    miner_init_bridge false = (false, false) ∧
    (∀ (e : Bool) (st : Store) (k v : String),
      redis_publish false e = false ∧
      redis_get false e st k = none ∧
      redis_set false e st k v = (false, st)) ∧
    (∀ (st : Store) (k v : String),
      redis_publish true true = false ∧
      redis_get true true st k = none ∧
      redis_set true true st k v = (false, st)) ∧
    (∀ (m : MinerCtx) (b : Bool) (env : Env) (s : Synapse),
      forward { m with gui_available := b } env s = forward m env s) := by
  refine ⟨rfl, ?_, ?_, ?_⟩
  · intro e st k v
    exact ⟨rfl, rfl, rfl⟩
  · intro st k v
    exact ⟨rfl, rfl, rfl⟩
  · intro m b env s
    cases m
    rfl

/-- C10: the allow-list consulted by `check_whitelist` is the hardcoded
empty list and non-string inputs are rejected, so `check_whitelist`
returns `False` on every input; hence the whitelist-accept branch of
`blacklist` and the maximum-priority branch of `priority` are
unreachable: `blacklist` coincides with its whitelist-free variant and
`priority` always yields exactly the requester's metagraph stake. -/
theorem c10_whitelist_always_false :
    (∀ x : HotkeyInput, check_whitelist x = false) ∧
    (∀ (mg : Metagraph) (hk : String),
      priority mg hk = metagraph_stake mg hk) ∧
    (∀ (vms : ℚ) (mg : Metagraph) (hk : String),
      blacklist vms mg hk = blacklist_no_whitelist vms mg hk) := by
  refine ⟨?_, ?_, ?_⟩
  · intro x
    cases x <;> simp [check_whitelist, whitelisted_hotkeys]
  · intro mg hk
    simp [priority, metagraph_stake, check_whitelist, whitelisted_hotkeys]
  · intro vms mg hk
    simp [blacklist, blacklist_no_whitelist, check_whitelist,
      whitelisted_hotkeys]

/-- Helper: total correctness of the polling loop.  For every fuel the
loop either raises the timeout, and then no poll within the fuel ever
saw the key, or returns the payload of some poll that saw the key,
deleting exactly that key. -/
theorem wait_loop_spec (stores : Nat → Store) (key : String) :
    ∀ (fuel n : Nat),
      (wait_loop stores key n fuel = .error () ∧
        ∀ k, n ≤ k → k < n + fuel → storeGet (stores k) key = none) ∨
      (∃ e k, n ≤ k ∧ k < n + fuel ∧ storeGet (stores k) key = some e ∧
        wait_loop stores key n fuel =
          .ok (e.value, storeDel (stores k) key)) := by
  intro fuel
  induction fuel with
  | zero =>
    intro n
    left
    refine ⟨rfl, ?_⟩
    intro k hk1 hk2
    omega
  | succ f ih =>
    intro n
    cases hg : storeGet (stores n) key with
    | some e =>
      right
      exact ⟨e, n, le_refl n, by omega, hg, by simp [wait_loop, hg]⟩
    | none =>
      rcases ih (n + 1) with ⟨herr, hnone⟩ | ⟨e, k, hk1, hk2, hsome, hok⟩
      · left
        refine ⟨by simp [wait_loop, hg, herr], ?_⟩
        intro k hk1 hk2
        rcases Nat.eq_or_lt_of_le hk1 with h | h
        · exact h ▸ hg
        · exact hnone k h (by omega)
      · right
        exact ⟨e, k, by omega, by omega, hsome,
          by simp [wait_loop, hg, hok]⟩

/-- C5: `wait_for_result(message_id, timeout)` is a total, bounded
poll: it either raises `TimeoutError` — and then no poll before the
deadline (there are at most `⌈10·timeout⌉` of them) ever saw the key
`result:<message_id>` — or it returns the payload found by some poll
within the deadline and deletes exactly that key (single consumption).
It never blocks indefinitely: the embedding is a structurally
terminating function of the `⌈10·timeout⌉` fuel. -/
theorem c5_wait_for_result_bounded (stores : Nat → Store)
    (message_id : String) (timeout : ℚ) :
    (wait_for_result stores message_id timeout = .error () ∧
      ∀ k < wfrFuel timeout,
        storeGet (stores k) ("result:" ++ message_id) = none) ∨
    (∃ e k, k < wfrFuel timeout ∧
      storeGet (stores k) ("result:" ++ message_id) = some e ∧
      wait_for_result stores message_id timeout =
        .ok (e.value, storeDel (stores k) ("result:" ++ message_id))) := by
  rcases wait_loop_spec stores ("result:" ++ message_id)
      (wfrFuel timeout) 0 with ⟨herr, hnone⟩ | ⟨e, k, _, hk2, hsome, hok⟩
  · left
    refine ⟨herr, ?_⟩
    intro k hk
    exact hnone k (Nat.zero_le k) (by omega)
  · right
    exact ⟨e, k, by omega, hsome, hok⟩

/-- Witness for C5 echoing the spec's test: with no writer ever storing
the key, `wait_for_result` with a `200ms` deadline fails with the
timeout instead of blocking. -/
theorem c5_wait_for_result_bounded_witness :
    wait_for_result (fun _ => ([] : Store)) "m1" (1 / 5 : ℚ) =
      .error () := by
  rcases c5_wait_for_result_bounded (fun _ => ([] : Store)) "m1"
      (1 / 5 : ℚ) with ⟨herr, _⟩ | ⟨e, k, _, hsome, _⟩
  · exact herr
  · simp [storeGet] at hsome

/-- C7: a requester failing the trust check (unknown hotkey, no
validator permit, or stake below `validator_min_stake`) is refused by
`blacklist`; a requester passing it is accepted and `priority` assigns
it exactly its metagraph stake; and the code's allow-list branch, when
taken, accepts the hotkey and assigns the maximum priority
`10000000.0` regardless of stake. -/
theorem c7_trust_check_and_priority (vms : ℚ) (mg : Metagraph)
    (hk : String) :
    (hk ∉ mg.hotkeys → (blacklist vms mg hk).1 = true) ∧
    (hk ∈ mg.hotkeys →
      mg.validator_permit.getD (mg.hotkeys.indexOf hk) false = false →
      (blacklist vms mg hk).1 = true) ∧
    (hk ∈ mg.hotkeys → mg.S.getD (mg.hotkeys.indexOf hk) 0 < vms →
      (blacklist vms mg hk).1 = true) ∧
    (hk ∈ mg.hotkeys →
      mg.validator_permit.getD (mg.hotkeys.indexOf hk) false = true →
      vms ≤ mg.S.getD (mg.hotkeys.indexOf hk) 0 →
      (blacklist vms mg hk).1 = false) ∧
    (hk ∈ mg.hotkeys →
      priority mg hk = some (mg.S.getD (mg.hotkeys.indexOf hk) 0)) ∧
    (check_whitelist (.str hk) = true →
      (blacklist vms mg hk).1 = false ∧
      priority mg hk = some 10000000) := by
  refine ⟨?_, ?_, ?_, ?_, ?_, ?_⟩
  · intro h
    simp [blacklist, check_whitelist, whitelisted_hotkeys, h]
  · intro h hp
    rw [List.getD_eq_getElem?_getD] at hp
    simp [blacklist, check_whitelist, whitelisted_hotkeys, h, hp]
  · intro h hs
    rw [List.getD_eq_getElem?_getD] at hs
    cases hperm : mg.validator_permit[mg.hotkeys.indexOf hk]?.getD false <;>
      simp [blacklist, check_whitelist, whitelisted_hotkeys, h, hperm, hs]
  · intro h hp hs
    rw [List.getD_eq_getElem?_getD] at hp
    rw [List.getD_eq_getElem?_getD] at hs
    simp [blacklist, check_whitelist, whitelisted_hotkeys, h, hp,
      not_lt.2 hs]
  · intro h
    simp [priority, check_whitelist, whitelisted_hotkeys, h]
  · intro h
    simp [check_whitelist, whitelisted_hotkeys] at h

/-- Witness for C7 at the concrete metagraph `mgW` and
`validator_min_stake = 1000`: an unknown hotkey and a non-validator are
refused, the staked validator is accepted and prioritised by its
stake. -/
theorem c7_trust_check_and_priority_witness :
    (blacklist 1000 mgW "ghost").1 = true ∧
    (blacklist 1000 mgW "plain").1 = true ∧
    (blacklist 1000 mgW "vali").1 = false ∧
    priority mgW "vali" = some 2000 := by
  refine ⟨(c7_trust_check_and_priority 1000 mgW "ghost").1 (by decide),
    (c7_trust_check_and_priority 1000 mgW "plain").2.1 (by decide)
      (by decide),
    (c7_trust_check_and_priority 1000 mgW "vali").2.2.2.1 (by decide)
      (by decide) (by norm_num [mgW]),
    ?_⟩
  have h := (c7_trust_check_and_priority 1000 mgW "vali").2.2.2.2.1
    (by decide)
  simpa [mgW] using h

/-- C6: when the change filter reports no changed games, `forward`
serves the cached predictions (they end up on the synapse object) and
never calls `process_games` or `process_predictions`; when it reports a
nonempty changed subset, `forward` runs the compute pipeline exactly on
that subset and merges the fresh predictions into the cache via
`update_cached_predictions`. -/
theorem c6_change_filter_dispatch (m : MinerCtx) (env : Env)
    (s : Synapse) (batch : GameDict)
    (hb : s.gamedata_dict = some batch) :
    (∀ cached, env.filter_changed_games batch = .ok [] →
      env.get_cached_predictions = .ok cached → cached ≠ [] →
      env.periodic_db_update = .ok () →
      (forward m env s).trace =
        [Ev.filterChanged batch, Ev.getCached, Ev.periodicUpdate] ∧
      (forward m env s).syn.prediction_dict = some cached ∧
      (∀ g, Ev.processGames g ∉ (forward m env s).trace) ∧
      (∀ u n, Ev.processPredictions u n ∉ (forward m env s).trace)) ∧
    (∀ changed updated newGames fresh,
      env.filter_changed_games batch = .ok changed → changed ≠ [] →
      env.process_games changed = .ok (updated, newGames) →
      env.process_predictions updated newGames = .ok fresh →
      env.update_cached_predictions fresh = .ok () → fresh ≠ [] →
      env.update_stats_from_predictions fresh updated = .ok () →
      env.periodic_db_update = .ok () →
      (forward m env s).trace =
        [Ev.filterChanged batch, Ev.processGames changed,
         Ev.processPredictions updated newGames, Ev.updateCache fresh,
         Ev.updateStats fresh updated, Ev.periodicUpdate] ∧
      (forward m env s).syn.prediction_dict = some fresh) := by
  constructor
  · intro cached h1 h2 h3 h4
    simp [forward, forward_tail, hb, h1, h2, h3, h4, List.isEmpty_iff]
  · intro changed updated newGames fresh h1 hc h2 h3 h4 hf h5 h6
    simp [forward, forward_tail, hb, h1, hc, h2, h3, h4, hf, h5, h6,
      List.isEmpty_iff]

/-- Witness for C6: one fully cached run (no compute events) and one
fully recomputing run (compute exactly on the changed games, cache
merged), both at concrete collaborator outcomes. -/
theorem c6_change_filter_dispatch_witness :
    ((forward mCtx
        { envAllOk with filter_changed_games := fun _ => .ok [] }
        synGame).trace =
      [Ev.filterChanged [("g1", "d1")], Ev.getCached,
       Ev.periodicUpdate] ∧
     (forward mCtx
        { envAllOk with filter_changed_games := fun _ => .ok [] }
        synGame).syn.prediction_dict = some [("p0", "cached0")]) ∧
    ((forward mCtx envAllOk synGame).trace =
      [Ev.filterChanged [("g1", "d1")],
       Ev.processGames [("g1", "d1")],
       Ev.processPredictions [("g1", "d1")] [],
       Ev.updateCache [("p1", "fresh1")],
       Ev.updateStats [("p1", "fresh1")] [("g1", "d1")],
       Ev.periodicUpdate] ∧
     (forward mCtx envAllOk synGame).syn.prediction_dict =
       some [("p1", "fresh1")]) := by
  constructor
  · have h := (c6_change_filter_dispatch mCtx
      { envAllOk with filter_changed_games := fun _ => .ok [] }
      synGame [("g1", "d1")] rfl).1 [("p0", "cached0")] rfl rfl
      (by decide) rfl
    exact ⟨h.1, h.2.1⟩
  · exact (c6_change_filter_dispatch mCtx envAllOk synGame
      [("g1", "d1")] rfl).2 [("g1", "d1")] [("g1", "d1")] []
      [("p1", "fresh1")] rfl (by decide) rfl rfl rfl (by decide) rfl rfl

/-- C3 counterexample: with no changed games and an empty prediction
cache, `forward` returns the `_clean_synapse`-cleaned reply whose
metadata type is `"error"` — the very same reply value produced when a
step raises (here: the change filter failing), so the "no output" reply
is neither non-error nor distinct from the error reply. -/
theorem c3_counterexample_no_output_reply_is_error_reply :
    (forward mCtx
      { envAllOk with filter_changed_games := fun _ => .ok [],
                      get_cached_predictions := .ok [] } synGame).ret =
      some (clean_synapse mCtx synGame) ∧
    (clean_synapse mCtx synGame).metadata.synapse_type = "error" ∧
    (forward mCtx
      { envAllOk with filter_changed_games := fun _ => .ok [],
                      get_cached_predictions := .ok [] } synGame).ret =
    (forward mCtx
      { envAllOk with filter_changed_games := fun _ => .error "db down" }
      synGame).ret :=
  ⟨rfl, rfl, rfl⟩

/-- C3 (amended): when the merged prediction set is empty, `forward`
returns the synapse cleaned by `_clean_synapse`, whose metadata type is
`"error"` — the same reply value as the exception path; the no-output
case is distinguished only in log output, not in the reply. -/
theorem c3_empty_predictions_reply (m : MinerCtx) (env : Env)
    (s : Synapse) (batch : GameDict)
    (hb : s.gamedata_dict = some batch)
    (h1 : env.filter_changed_games batch = .ok [])
    (h2 : env.get_cached_predictions = .ok []) :
    (forward m env s).ret = some (clean_synapse m s) ∧
    (forward m env s).syn = clean_synapse m s ∧
    (clean_synapse m s).metadata.synapse_type = "error" ∧
    ∀ (env2 : Env) (e : Err),
      env2.filter_changed_games batch = .error e →
      (forward m env2 s).ret = (forward m env s).ret := by
  refine ⟨?_, ?_, rfl, ?_⟩
  · simp [forward, forward_tail, hb, h1, h2]
  · simp [forward, forward_tail, hb, h1, h2]
  · intro env2 e h
    simp [forward, forward_tail, errorOut, hb, h1, h2, h]

/-- Witness for C3 (amended) at concrete collaborator outcomes. -/
theorem c3_empty_predictions_reply_witness :
    (forward mCtx
      { envAllOk with filter_changed_games := fun _ => .ok [],
                      get_cached_predictions := .ok [] } synGame).ret =
      some (clean_synapse mCtx synGame) ∧
    (forward mCtx
      { envAllOk with filter_changed_games := fun _ => .error "down" }
      synGame).ret =
    (forward mCtx
      { envAllOk with filter_changed_games := fun _ => .ok [],
                      get_cached_predictions := .ok [] } synGame).ret := by
  have h := c3_empty_predictions_reply mCtx
    { envAllOk with filter_changed_games := fun _ => .ok [],
                    get_cached_predictions := .ok [] }
    synGame [("g1", "d1")] rfl rfl rfl
  exact ⟨h.1, h.2.2.2
    { envAllOk with filter_changed_games := fun _ => .error "down" }
    "down" rfl⟩

/-- C4 counterexample: predictions were computed for the batch, then
`periodic_db_update` raised; the reply is NOT the same as when
persistence succeeds — the success run returns `None` with the
predictions attached to the synapse, the failing run returns the
cleaned synapse with the predictions stripped. -/
theorem c4_counterexample_persistence_failure_changes_reply :
    (forward mCtx { envAllOk with periodic_db_update := .error "db" }
      synGame).ret = some (clean_synapse mCtx synGame) ∧
    (forward mCtx { envAllOk with periodic_db_update := .error "db" }
      synGame).syn.prediction_dict = none ∧
    (forward mCtx envAllOk synGame).syn.prediction_dict =
      some [("p1", "fresh1")] ∧
    (forward mCtx { envAllOk with periodic_db_update := .error "db" }
      synGame).ret ≠ (forward mCtx envAllOk synGame).ret := by
  refine ⟨rfl, rfl, rfl, ?_⟩
  decide

/-- C4 (amended): a failure raised inside
`update_stats_from_predictions` or `periodic_db_update` is caught by
`forward`'s blanket handler — no exception escapes — but the reply does
change: `forward` returns the cleaned synapse with the predictions
stripped instead of the computed predictions. -/
theorem c4_persistence_failure_caught_reply_cleaned (m : MinerCtx)
    (env : Env) (s : Synapse)
    (batch changed updated newGames : GameDict) (fresh : PredDict)
    (e : Err) (hb : s.gamedata_dict = some batch)
    (h1 : env.filter_changed_games batch = .ok changed)
    (hc : changed ≠ [])
    (h2 : env.process_games changed = .ok (updated, newGames))
    (h3 : env.process_predictions updated newGames = .ok fresh)
    (h4 : env.update_cached_predictions fresh = .ok ())
    (hf : fresh ≠ []) :
    (env.update_stats_from_predictions fresh updated = .error e →
      (forward m env s).ret = some (clean_synapse m s) ∧
      (forward m env s).syn.prediction_dict = none) ∧
    (env.update_stats_from_predictions fresh updated = .ok () →
      env.periodic_db_update = .error e →
      (forward m env s).ret = some (clean_synapse m s) ∧
      (forward m env s).syn.prediction_dict = none) := by
  constructor
  · intro h5
    simp [forward, forward_tail, errorOut, clean_synapse, hb, h1, hc,
      h2, h3, h4, hf, h5, List.isEmpty_iff]
  · intro h5 h6
    simp [forward, forward_tail, errorOut, clean_synapse, hb, h1, hc,
      h2, h3, h4, hf, h5, h6, List.isEmpty_iff]

/-- Witness for C4 (amended): one run in which the stats update raises
and one in which the periodic persistence raises, both after computing
a concrete fresh prediction. -/
theorem c4_persistence_failure_caught_reply_cleaned_witness :
    ((forward mCtx
        { envAllOk with
            update_stats_from_predictions := fun _ _ => .error "db" }
        synGame).ret = some (clean_synapse mCtx synGame) ∧
     (forward mCtx
        { envAllOk with
            update_stats_from_predictions := fun _ _ => .error "db" }
        synGame).syn.prediction_dict = none) ∧
    ((forward mCtx { envAllOk with periodic_db_update := .error "db" }
        synGame).ret = some (clean_synapse mCtx synGame) ∧
     (forward mCtx { envAllOk with periodic_db_update := .error "db" }
        synGame).syn.prediction_dict = none) := by
  constructor
  · exact (c4_persistence_failure_caught_reply_cleaned mCtx
      { envAllOk with
          update_stats_from_predictions := fun _ _ => .error "db" }
      synGame [("g1", "d1")] [("g1", "d1")] [("g1", "d1")] []
      [("p1", "fresh1")] "db" rfl rfl (by decide) rfl rfl rfl
      (by decide)).1 rfl
  · exact (c4_persistence_failure_caught_reply_cleaned mCtx
      { envAllOk with periodic_db_update := .error "db" }
      synGame [("g1", "d1")] [("g1", "d1")] [("g1", "d1")] []
      [("p1", "fresh1")] "db" rfl rfl (by decide) rfl rfl rfl
      (by decide)).2 rfl rfl

/-- C9: in the wager-confirmation flow (with the UI cash copy in sync
with the state manager and no daily reset due), an unparsable amount or
an amount `w ≤ 0` or `w > cash` is rejected before any persistence —
`add_prediction` is never reached and the whole application state is
unchanged; a confirmed amount `0 < w ≤ cash` persists exactly one row
and debits both cash balances by exactly `w`, so the cash stays
nonnegative. -/
theorem c9_wager_confirm (app : AppState) (g : GameRow) (team : String)
    (today : Nat) (dailyCash : ℚ)
    (hsync : app.miner_cash = app.sm.cash)
    (hdate : ¬ app.sm.lastResetDate < today) :
    (wager_confirm_enter app g team none today dailyCash =
      (app, false)) ∧
    (∀ w : ℚ, w ≤ 0 ∨ w > app.miner_cash →
      wager_confirm_enter app g team (some w) today dailyCash =
        (app, false)) ∧
    (∀ w : ℚ, 0 < w → w ≤ app.miner_cash →
      (wager_confirm_enter app g team (some w) today dailyCash).2 =
        true ∧
      (wager_confirm_enter app g team (some w) today
        dailyCash).1.miner_cash = app.miner_cash - w ∧
      (wager_confirm_enter app g team (some w) today
        dailyCash).1.sm.cash = app.sm.cash - w ∧
      (wager_confirm_enter app g team (some w) today
        dailyCash).1.persisted =
        mk_pred_row g team w :: app.persisted ∧
      (wager_confirm_enter app g team (some w) today
        dailyCash).1.predictions =
        mk_pred_row g team w :: app.predictions ∧
      0 ≤ (wager_confirm_enter app g team (some w) today
        dailyCash).1.miner_cash) := by
  have hsm : sm_reconcile_state app.sm today dailyCash = app.sm :=
    if_neg hdate
  have hreload : app_reload_miner_stats app today dailyCash = app := by
    simp only [app_reload_miner_stats, hsm, ← hsync]
  refine ⟨?_, ?_, ?_⟩
  · simp only [wager_confirm_enter, hreload]
  · intro w hw
    simp only [wager_confirm_enter, if_pos hw, hreload]
  · intro w h0 h1
    have hcond : ¬ (w ≤ 0 ∨ w > app.miner_cash) := by
      push_neg
      exact ⟨h0, h1⟩
    have hstep : wager_confirm_enter app g team (some w) today
        dailyCash =
        (app_add_prediction app (mk_pred_row g team w) today dailyCash,
          true) := by
      simp only [wager_confirm_enter, if_neg hcond]
    have hadd : app_add_prediction app (mk_pred_row g team w) today
        dailyCash =
        { miner_cash := app.sm.cash + -w,
          predictions := mk_pred_row g team w :: app.predictions,
          persisted := mk_pred_row g team w :: app.persisted,
          sm := { cash := app.sm.cash + -w,
                  lastResetDate := app.sm.lastResetDate } } := by
      simp only [app_add_prediction, app_update_miner_cash,
        app_reload_miner_stats, sm_update_on_prediction,
        sm_reconcile_state, mk_pred_row, if_neg hdate]
    have heq : wager_confirm_enter app g team (some w) today dailyCash =
        ({ miner_cash := app.sm.cash + -w,
           predictions := mk_pred_row g team w :: app.predictions,
           persisted := mk_pred_row g team w :: app.persisted,
           sm := { cash := app.sm.cash + -w,
                   lastResetDate := app.sm.lastResetDate } }, true) := by
      rw [hstep, hadd]
    refine ⟨?_, ?_, ?_, ?_, ?_, ?_⟩ <;> rw [heq]
    · show app.sm.cash + -w = app.miner_cash - w
      rw [hsync]
      ring
    · show app.sm.cash + -w = app.sm.cash - w
      ring
    · show (0 : ℚ) ≤ app.sm.cash + -w
      rw [← hsync]
      linarith

/-- Witness for C9 at a concrete application state with cash `100`:
the amounts `0` and `250` are rejected leaving the state unchanged, the
amount `30` is submitted, persisted once, and debits the cash to
`70`. -/
theorem c9_wager_confirm_witness :
    (wager_confirm_enter
      { miner_cash := 100, predictions := [], persisted := [],
        sm := { cash := 100, lastResetDate := 5 } }
      { externalId := "e1", teamA := "A", teamB := "B",
        teamAodds := 2, teamBodds := 3, tieOdds := none }
      "A" (some 0) 5 100 =
      ({ miner_cash := 100, predictions := [], persisted := [],
         sm := { cash := 100, lastResetDate := 5 } }, false)) ∧
    (wager_confirm_enter
      { miner_cash := 100, predictions := [], persisted := [],
        sm := { cash := 100, lastResetDate := 5 } }
      { externalId := "e1", teamA := "A", teamB := "B",
        teamAodds := 2, teamBodds := 3, tieOdds := none }
      "A" (some 250) 5 100 =
      ({ miner_cash := 100, predictions := [], persisted := [],
         sm := { cash := 100, lastResetDate := 5 } }, false)) ∧
    (wager_confirm_enter
      { miner_cash := 100, predictions := [], persisted := [],
        sm := { cash := 100, lastResetDate := 5 } }
      { externalId := "e1", teamA := "A", teamB := "B",
        teamAodds := 2, teamBodds := 3, tieOdds := none }
      "A" (some 30) 5 100).1.miner_cash = 70 ∧
    (wager_confirm_enter
      { miner_cash := 100, predictions := [], persisted := [],
        sm := { cash := 100, lastResetDate := 5 } }
      { externalId := "e1", teamA := "A", teamB := "B",
        teamAodds := 2, teamBodds := 3, tieOdds := none }
      "A" (some 30) 5 100).1.persisted =
      [{ teamGameID := "e1", predictedOutcome := "A", wager := 30,
         teamAodds := 2, teamBodds := 3, tieOdds := none,
         outcome := "Unfinished" }] := by
  have h := c9_wager_confirm
    { miner_cash := 100, predictions := [], persisted := [],
      sm := { cash := 100, lastResetDate := 5 } }
    { externalId := "e1", teamA := "A", teamB := "B",
      teamAodds := 2, teamBodds := 3, tieOdds := none }
    "A" 5 100 rfl (by decide)
  have h30 := h.2.2 30 (by norm_num) (by norm_num)
  refine ⟨h.2.1 0 (Or.inl le_rfl), h.2.1 250 (by norm_num), ?_, ?_⟩
  · rw [h30.2.1]
    norm_num
  · rw [h30.2.2.2.1]
    rfl

end Bettensor
